import Mathlib

/-!
Verification of `gevent_queuepool/greenlet_queuepool.py`.

The embedding models the pool sequentially: the cooperative scheduler runs
one task at a time, and each pool operation is taken as one atomic step
(the source has no suspension point inside the modelled branches other
than the external creator/destroyer calls, whose outcomes are passed in
explicitly as parameters).

Resources are opaque handles, modelled as natural numbers.  Fallible
external collaborators (the creator and each resource's destroy/`close`
operation) are modelled by explicit outcome parameters.
-/

set_option autoImplicit false

/-- Outcome of invoking the external creator (`self._create_connection()`):
either a fresh resource or a creation error. -/
inductive CreateResult where
  | ok (r : Nat)
  | err
deriving Repr, DecidableEq

/-- Outcome of invoking a resource's external destroy operation
(`conn.close()`): success or an error. -/
inductive DestroyResult where
  | ok
  | err
deriving Repr, DecidableEq

/-- Modelled from the spec: the IdleQueue (`gevent.queue.Queue`, an external
collaborator whose code is not part of this repository) per spec section 4.1:
a fixed-capacity container; `try_put` inserts iff current size < capacity and
signals `full` otherwise; non-blocking `get` returns a resource or the `empty`
signal.  `maxsize` is the Python `Queue.maxsize` (the `pool_size` argument). -/
structure GQueue where
  maxsize : Nat
  items : List Nat
deriving Repr, DecidableEq

/-- Embedding of `self._pool.put(conn, False)`: inserts at the tail when size < capacity,
returns `none` for the `Full` signal otherwise. -/
def GQueue.put (q : GQueue) (x : Nat) : Option GQueue :=
  if q.items.length < q.maxsize then some { q with items := q.items ++ [x] }
  else none

/-- Embedding of `self._pool.get(False)` and of the `Empty`-terminating branch of
`self._pool.get(wait, timeout)`: returns the resource at the head, or `none`
for the `Empty` signal when no resource is available. -/
def GQueue.take (q : GQueue) : Option (Nat × GQueue) :=
  match q.items with
  | [] => none
  | x :: rest => some (x, { q with items := rest })

/-- Embedding of `self._pool.qsize()`: the current number of idle resources
(`self._pool.qsize()`). -/
def GQueue.qsize (q : GQueue) : Nat :=
  q.items.length

/-- The mutable state of a `GreenletQueuePool`, with the attribute names of
the source: `self._pool`, `self._overflow`, `self._max_overflow`,
`self._timeout`.  `_overflow` is an integer (it starts at `0 - pool_size`),
`_max_overflow` is an integer (`-1` denotes unbounded). -/
structure PoolState where
  _pool : GQueue
  _overflow : Int
  _max_overflow : Int
  _timeout : Nat
deriving Repr, DecidableEq

/-- Embedding of `GreenletQueuePool.__init__`: fresh state with an empty queue of capacity
`pool_size` and `_overflow = 0 - pool_size`. -/
def PoolState.init (pool_size : Nat) (max_overflow : Int) (timeout : Nat) : PoolState :=
  { _pool := { maxsize := pool_size, items := [] }
  , _overflow := 0 - (pool_size : Int)
  , _max_overflow := max_overflow
  , _timeout := timeout }

/-- Embedding of `GreenletQueuePool.size()`: `self._pool.maxsize`. -/
def PoolState.size (s : PoolState) : Nat :=
  s._pool.maxsize

/-- Embedding of `GreenletQueuePool.checkedin()`: `self._pool.qsize()`. -/
def PoolState.checkedin (s : PoolState) : Nat :=
  s._pool.qsize

/-- Embedding of `GreenletQueuePool.overflow()`: `self._overflow`. -/
def PoolState.overflow (s : PoolState) : Int :=
  s._overflow

/-- Embedding of `GreenletQueuePool.checkedout()`:
`self._pool.maxsize - self._pool.qsize() + self._overflow`. -/
def PoolState.checkedout (s : PoolState) : Int :=
  (s._pool.maxsize : Int) - (s._pool.qsize : Int) + s._overflow

/-- Embedding of `GreenletQueuePool._inc_overflow`: if `_max_overflow == -1`, increment
unconditionally and return `True`; otherwise (under `self._overflow_lock`)
increment and return `True` only when `_overflow < _max_overflow`. -/
def PoolState.inc_overflow (s : PoolState) : Bool × PoolState :=
  if s._max_overflow = -1 then
    (true, { s with _overflow := s._overflow + 1 })
  else
    if s._overflow < s._max_overflow then
      (true, { s with _overflow := s._overflow + 1 })
    else
      (false, s)

/-- Embedding of `GreenletQueuePool._dec_overflow`: under `self._overflow_lock`, decrement
unconditionally (both branches of the source decrement and return `True`). -/
def PoolState.dec_overflow (s : PoolState) : Bool × PoolState :=
  if s._max_overflow = -1 then
    (true, { s with _overflow := s._overflow - 1 })
  else
    (true, { s with _overflow := s._overflow - 1 })

/-- Outcome of `GreenletQueuePool._do_return_conn`. -/
inductive ReleaseOutcome where
  | returned
  | destroyed
  | destroyRaised
deriving Repr, DecidableEq

/-- Embedding of `GreenletQueuePool._do_return_conn(conn)`: `self._pool.put(conn, False)`;
on `Full`, `try: conn.close() finally: self._dec_overflow()` — the decrement
runs whether or not the destroy raises, and a destroy error propagates. -/
def PoolState.do_return_conn (s : PoolState) (conn : Nat) (destroy : DestroyResult) :
    ReleaseOutcome × PoolState :=
  match s._pool.put conn with
  | some q => (.returned, { s with _pool := q })
  | none =>
    let s1 := (s.dec_overflow).2
    match destroy with
    | .ok => (.destroyed, s1)
    | .err => (.destroyRaised, s1)

/-- Outcome of `GreenletQueuePool._do_get`:
* `conn r` — a resource is returned to the caller;
* `timeoutRaised` — `exc.TimeoutError` is raised;
* `noneReturned` — the creator raised, the bare `except:` ran
  `self._dec_overflow()` without re-raising, and control fell off the end of
  the function, returning `None`;
* `fuelOut` — artifact of the fuel parameter bounding the source's
  self-recursive retries (`return self._do_get()`); never produced with
  positive fuel (see `PoolState.do_get_succ`). -/
inductive GetOutcome where
  | conn (r : Nat)
  | timeoutRaised
  | noneReturned
  | fuelOut
deriving Repr, DecidableEq

/-- Embedding of `GreenletQueuePool._do_get()`, with the two `return self._do_get()`
retries bounded by `fuel`.  The same creator outcome is offered at each
retry (sequentially the retry branches are unreachable, so this loses no
generality).  Mirrors the source: compute
`wait = use_overflow and self._overflow >= self._max_overflow`, try
`self._pool.get(wait, self._timeout)`; on `Empty`, either raise the timeout
error, retry, or `self._inc_overflow()` and invoke the creator (decrementing
without re-raising on creation failure). -/
def PoolState.do_get : Nat → PoolState → CreateResult → GetOutcome × PoolState
  | 0, s, _ => (.fuelOut, s)
  | fuel + 1, s, create =>
    let use_overflow := decide (s._max_overflow > -1)
    let wait := use_overflow && decide (s._overflow ≥ s._max_overflow)
    match s._pool.take with
    | some (c, q) => (.conn c, { s with _pool := q })
    | none =>
      if use_overflow && decide (s._overflow ≥ s._max_overflow) then
        if !wait then
          PoolState.do_get fuel s create
        else
          (.timeoutRaised, s)
      else
        match s.inc_overflow with
        | (true, s1) =>
          match create with
          | .ok r => (.conn r, s1)
          | .err => (.noneReturned, (s1.dec_overflow).2)
        | (false, s1) => PoolState.do_get fuel s1 create

/-- Outcome of `GreenletQueuePool.dispose`. -/
inductive DisposeOutcome where
  | done
  | raised (conn : Nat)
deriving Repr, DecidableEq

/-- The drain loop of `dispose`: repeatedly `conn = self._pool.get(False);
conn.close()` until `Empty`.  Only `Empty` is caught, so the first `close`
that raises aborts the loop: the failing resource has already been removed
from the queue, and the rest stays.  `fails c` tells whether destroying
resource `c` raises.  Returns (successfully destroyed resources, the
resource whose destroy raised if any, items left in the queue). -/
def drainLoop (fails : Nat → Bool) : List Nat → List Nat × Option Nat × List Nat
  | [] => ([], none, [])
  | c :: rest =>
    if fails c then ([], some c, rest)
    else
      let (d, e, r) := drainLoop fails rest
      (c :: d, e, r)

/-- Embedding of `GreenletQueuePool.dispose()`: drain the idle queue destroying each
resource; when the drain completes (`Empty`), set
`self._overflow = 0 - self.size()` and log; when a `close` raises, the
error propagates and the overflow reset never runs.  Returns the outcome,
the list of resources whose destroy succeeded, and the final state. -/
def PoolState.dispose (s : PoolState) (fails : Nat → Bool) :
    DisposeOutcome × List Nat × PoolState :=
  match drainLoop fails s._pool.items with
  | (destroyed, some c, remaining) =>
    (.raised c, destroyed, { s with _pool := { s._pool with items := remaining } })
  | (destroyed, none, remaining) =>
    (.done, destroyed,
      { s with _pool := { s._pool with items := remaining }
             , _overflow := 0 - (s._pool.maxsize : Int) })

/-- A pool object as produced by the metaclass machinery: an identity
(allocation tag, distinguishing distinct Python objects) plus the pool
state. -/
structure PoolInstance where
  instId : Nat
  state : PoolState
deriving Repr, DecidableEq

/-- Embedding of `Singleton.__call__`: if `self.instance is None`, construct (run
`__init__` on a fresh object) and cache; otherwise return the cached
instance without constructing anything.  `cache` is the class attribute
`instance`; `fresh` is the object that `super().__call__` would produce.
Returns the updated cache and the returned instance. -/
def Singleton.call (cache : Option PoolInstance) (fresh : PoolInstance) :
    Option PoolInstance × PoolInstance :=
  match cache with
  | none => (some fresh, fresh)
  | some inst => (some inst, inst)

/-- Embedding of `GreenletQueuePool.recreate()`: `self.__class__(self._creator,
pool_size=self._pool.maxsize, max_overflow=self._max_overflow,
timeout=self._timeout, ...)`.  Because `GreenletQueuePool` carries the
`Singleton` metaclass, this goes through `Singleton.__call__` with the
class's cached instance; `freshId` is the identity a newly allocated object
would get.  Returns the updated cache and the pool that `recreate` returns. -/
def PoolInstance.recreate (self : PoolInstance) (cache : Option PoolInstance)
    (freshId : Nat) : Option PoolInstance × PoolInstance :=
  Singleton.call cache
    ⟨freshId, PoolState.init self.state._pool.maxsize self.state._max_overflow
        self.state._timeout⟩

/-- States reachable from a freshly constructed pool by any sequence of
acquire (`_do_get`, any retry fuel, any creator outcome), release
(`_do_return_conn`, any resource and destroy outcome), `dispose` (any
destroy outcomes) and `recreate` (which, via the `Singleton` cache, returns
an existing instance and leaves the receiver's state untouched). -/
inductive Reach (cap : Nat) (m : Int) (t : Nat) : PoolState → Prop where
  | init : Reach cap m t (PoolState.init cap m t)
  | acquire {s : PoolState} (fuel : Nat) (create : CreateResult) :
      Reach cap m t s → Reach cap m t (s.do_get fuel create).2
  | release {s : PoolState} (conn : Nat) (destroy : DestroyResult) :
      Reach cap m t s → Reach cap m t (s.do_return_conn conn destroy).2
  | dispose {s : PoolState} (fails : Nat → Bool) :
      Reach cap m t s → Reach cap m t (s.dispose fails).2.2
  | recreate {s : PoolState} :
      Reach cap m t s → Reach cap m t s

theorem GQueue.take_of_nil {q : GQueue} (h : q.items = []) : q.take = none := by
  unfold GQueue.take
  rw [h]

theorem GQueue.take_of_cons {q : GQueue} {x : Nat} {rest : List Nat}
    (h : q.items = x :: rest) : q.take = some (x, { q with items := rest }) := by
  unfold GQueue.take
  rw [h]

theorem PoolState.inc_overflow_true {s : PoolState}
    (h : s._max_overflow = -1 ∨ s._overflow < s._max_overflow) :
    s.inc_overflow = (true, { s with _overflow := s._overflow + 1 }) := by
  unfold PoolState.inc_overflow
  rcases h with h | h
  · simp [h]
  · by_cases h2 : s._max_overflow = -1 <;> simp [h2, h]

theorem PoolState.dec_overflow_eq (s : PoolState) :
    s.dec_overflow = (true, { s with _overflow := s._overflow - 1 }) := by
  unfold PoolState.dec_overflow
  split <;> rfl

/-- One sequential pass of `_do_get` (no interleaving between computing
`wait` and handling `Empty`): pop the head if the queue is nonempty;
otherwise raise the timeout error when overflow is bounded and saturated,
and otherwise increment overflow and consult the creator.  Equal to
`do_get` with positive fuel by `PoolState.do_get_succ`. -/
def acquireStep (s : PoolState) (create : CreateResult) : GetOutcome × PoolState :=
  match s._pool.take with
  | some (c, q) => (.conn c, { s with _pool := q })
  | none =>
    if s._max_overflow > -1 ∧ s._overflow ≥ s._max_overflow then
      (.timeoutRaised, s)
    else
      match create with
      | .ok r => (.conn r, (s.inc_overflow).2)
      | .err => (.noneReturned, (((s.inc_overflow).2).dec_overflow).2)

theorem PoolState.do_get_succ (fuel : Nat) (s : PoolState) (create : CreateResult)
    (hm : -1 ≤ s._max_overflow) :
    s.do_get (fuel + 1) create = acquireStep s create := by
  unfold PoolState.do_get acquireStep
  cases htake : s._pool.take with
  | some p =>
    obtain ⟨c0, q⟩ := p
    rfl
  | none =>
    dsimp only
    by_cases h1 : s._max_overflow > -1 ∧ s._overflow ≥ s._max_overflow
    · have hc : (decide (s._max_overflow > -1) && decide (s._overflow ≥ s._max_overflow)) = true := by
        simp only [Bool.and_eq_true, decide_eq_true_eq]
        exact ⟨h1.1, h1.2⟩
      rw [hc, if_pos h1]
      simp
    · have hc : (decide (s._max_overflow > -1) && decide (s._overflow ≥ s._max_overflow)) = false := by
        rcases Decidable.not_and_iff_or_not.mp h1 with h | h <;> simp [h]
      have hinc : s._max_overflow = -1 ∨ s._overflow < s._max_overflow := by
        rcases Decidable.not_and_iff_or_not.mp h1 with h | h <;> omega
      rw [hc]
      simp only [Bool.false_eq_true, if_false, if_neg h1]
      rw [PoolState.inc_overflow_true hinc]

theorem GQueue.take_maxsize {q : GQueue} {x : Nat} {q' : GQueue}
    (h : q.take = some (x, q')) : q'.maxsize = q.maxsize := by
  unfold GQueue.take at h
  cases hq : q.items with
  | nil => rw [hq] at h; cases h
  | cons y rest => rw [hq] at h; cases h; rfl

theorem GQueue.put_maxsize {q : GQueue} {x : Nat} {q' : GQueue}
    (h : q.put x = some q') : q'.maxsize = q.maxsize := by
  unfold GQueue.put at h
  split at h
  · cases h; rfl
  · cases h

/-- Two pool states sharing the configuration fields (`_max_overflow`, the
queue capacity and `_timeout`); none of the pool operations changes these. -/
def sameConfig (s s' : PoolState) : Prop :=
  s'._max_overflow = s._max_overflow ∧ s'._pool.maxsize = s._pool.maxsize ∧
    s'._timeout = s._timeout

theorem sameConfig_self (s : PoolState) : sameConfig s s :=
  ⟨rfl, rfl, rfl⟩

theorem sameConfig_trans {s1 s2 s3 : PoolState}
    (h1 : sameConfig s1 s2) (h2 : sameConfig s2 s3) : sameConfig s1 s3 :=
  ⟨h2.1.trans h1.1, h2.2.1.trans h1.2.1, h2.2.2.trans h1.2.2⟩

theorem PoolState.inc_overflow_config (s : PoolState) :
    sameConfig s ((s.inc_overflow).2) := by
  unfold PoolState.inc_overflow
  split
  · exact ⟨rfl, rfl, rfl⟩
  · split
    · exact ⟨rfl, rfl, rfl⟩
    · exact ⟨rfl, rfl, rfl⟩

theorem PoolState.dec_overflow_config (s : PoolState) :
    sameConfig s ((s.dec_overflow).2) := by
  rw [PoolState.dec_overflow_eq]
  exact ⟨rfl, rfl, rfl⟩

theorem acquireStep_config (s : PoolState) (c : CreateResult) :
    sameConfig s ((acquireStep s c).2) := by
  unfold acquireStep
  cases htake : s._pool.take with
  | some p =>
    obtain ⟨c0, q⟩ := p
    exact ⟨rfl, GQueue.take_maxsize htake, rfl⟩
  | none =>
    dsimp only
    split
    · exact ⟨rfl, rfl, rfl⟩
    · cases c with
      | ok r => exact PoolState.inc_overflow_config s
      | err =>
        exact sameConfig_trans (PoolState.inc_overflow_config s)
          (PoolState.dec_overflow_config _)

theorem PoolState.do_get_config (fuel : Nat) (s : PoolState) (c : CreateResult) :
    sameConfig s ((s.do_get fuel c).2) := by
  induction fuel generalizing s with
  | zero => exact sameConfig_self s
  | succ n ih =>
    unfold PoolState.do_get
    cases htake : s._pool.take with
    | some p =>
      obtain ⟨c0, q⟩ := p
      exact ⟨rfl, GQueue.take_maxsize htake, rfl⟩
    | none =>
      dsimp only
      split
      · split
        · exact ih s
        · exact sameConfig_self s
      · rcases hinc : s.inc_overflow with ⟨b, s1⟩
        have hf := PoolState.inc_overflow_config s
        rw [hinc] at hf
        cases b with
        | true =>
          cases c with
          | ok r => exact hf
          | err => exact sameConfig_trans hf (PoolState.dec_overflow_config s1)
        | false => exact sameConfig_trans hf (ih s1)

theorem PoolState.do_return_conn_config (s : PoolState) (conn : Nat)
    (destroy : DestroyResult) : sameConfig s ((s.do_return_conn conn destroy).2) := by
  unfold PoolState.do_return_conn
  cases hput : s._pool.put conn with
  | some q => exact ⟨rfl, GQueue.put_maxsize hput, rfl⟩
  | none =>
    cases destroy <;>
      exact sameConfig_trans (sameConfig_self s) (PoolState.dec_overflow_config s)

theorem PoolState.dispose_config (s : PoolState) (fails : Nat → Bool) :
    sameConfig s ((s.dispose fails).2.2) := by
  unfold PoolState.dispose
  split <;> exact ⟨rfl, rfl, rfl⟩

theorem Reach.config {cap : Nat} {m : Int} {t : Nat} {s : PoolState}
    (h : Reach cap m t s) :
    s._max_overflow = m ∧ s._pool.maxsize = cap ∧ s._timeout = t := by
  induction h with
  | init => exact ⟨rfl, rfl, rfl⟩
  | @acquire s0 fuel create hr ih =>
    have hc := PoolState.do_get_config fuel s0 create
    exact ⟨hc.1.trans ih.1, hc.2.1.trans ih.2.1, hc.2.2.trans ih.2.2⟩
  | @release s0 conn destroy hr ih =>
    have hc := PoolState.do_return_conn_config s0 conn destroy
    exact ⟨hc.1.trans ih.1, hc.2.1.trans ih.2.1, hc.2.2.trans ih.2.2⟩
  | @dispose s0 fails hr ih =>
    have hc := PoolState.dispose_config s0 fails
    exact ⟨hc.1.trans ih.1, hc.2.1.trans ih.2.1, hc.2.2.trans ih.2.2⟩
  | recreate hr ih => exact ih

theorem acquireStep_overflow_le {s : PoolState} {c : CreateResult}
    (hmax : 0 ≤ s._max_overflow) (h : s._overflow ≤ s._max_overflow) :
    ((acquireStep s c).2)._overflow ≤ s._max_overflow := by
  unfold acquireStep
  cases htake : s._pool.take with
  | some p =>
    obtain ⟨c0, q⟩ := p
    exact h
  | none =>
    dsimp only
    split
    · exact h
    · rename_i h1
      have hlt : s._overflow < s._max_overflow := by
        rcases Decidable.not_and_iff_or_not.mp h1 with h2 | h2 <;> omega
      rw [PoolState.inc_overflow_true (Or.inr hlt)]
      cases c with
      | ok r =>
        dsimp only
        omega
      | err =>
        rw [PoolState.dec_overflow_eq]
        dsimp only
        omega

theorem PoolState.do_return_conn_overflow (s : PoolState) (conn : Nat)
    (d : DestroyResult) :
    ((s.do_return_conn conn d).2)._overflow = s._overflow ∨
    ((s.do_return_conn conn d).2)._overflow = s._overflow - 1 := by
  unfold PoolState.do_return_conn
  cases hput : s._pool.put conn with
  | some q => exact Or.inl rfl
  | none =>
    dsimp only
    rw [PoolState.dec_overflow_eq]
    cases d <;> exact Or.inr rfl

theorem PoolState.dispose_overflow (s : PoolState) (fails : Nat → Bool) :
    ((s.dispose fails).2.2)._overflow = s._overflow ∨
    ((s.dispose fails).2.2)._overflow = 0 - (s._pool.maxsize : Int) := by
  unfold PoolState.dispose
  split
  · exact Or.inl rfl
  · exact Or.inr rfl

theorem Reach.overflow_le {cap : Nat} {m : Int} {t : Nat} {s : PoolState}
    (hm : 0 ≤ m) (h : Reach cap m t s) : s._overflow ≤ m := by
  induction h with
  | init =>
    show 0 - (cap : Int) ≤ m
    omega
  | @acquire s0 fuel create hr ih =>
    obtain ⟨hmax, -, -⟩ := Reach.config hr
    cases fuel with
    | zero => exact ih
    | succ n =>
      rw [PoolState.do_get_succ n s0 create (by omega)]
      have h2 := @acquireStep_overflow_le s0 create (by omega) (by omega)
      omega
  | @release s0 conn destroy hr ih =>
    rcases PoolState.do_return_conn_overflow s0 conn destroy with h2 | h2 <;> omega
  | @dispose s0 fails hr ih =>
    rcases PoolState.dispose_overflow s0 fails with h2 | h2 <;> omega
  | recreate hr ih => exact ih

/-- C4: for every pool configured with `max_overflow ≥ 0`, in every state
reachable by any sequence of acquire, release, dispose and recreate
operations from a freshly constructed pool,
`checkedout() ≤ size() + max_overflow`. -/
theorem C4_checkedout_le {cap : Nat} {m : Int} {t : Nat} {s : PoolState}
    (hm : 0 ≤ m) (h : Reach cap m t s) :
    s.checkedout ≤ (s.size : Int) + m := by
  have h1 := Reach.overflow_le hm h
  unfold PoolState.checkedout PoolState.size
  omega

/-- Witness for C4 at the concrete configuration
`pool_size = 2, max_overflow = 1, timeout = 30` in its initial state. -/
theorem C4_witness :
    0 ≤ (1 : Int) ∧
      (PoolState.init 2 1 30).checkedout ≤ ((PoolState.init 2 1 30).size : Int) + 1 :=
  ⟨by decide, C4_checkedout_le (by decide) Reach.init⟩

theorem GQueue.put_of_full {q : GQueue} (x : Nat) (h : ¬ q.items.length < q.maxsize) :
    q.put x = none := by
  unfold GQueue.put
  rw [if_neg h]

/-- On a full queue (`qsize ≥ maxsize`), `_do_return_conn` hits the `Full`
branch: the resource is not inserted, its destroy operation is attempted,
and `_dec_overflow` runs unconditionally (`finally`). -/
theorem PoolState.do_return_conn_full {s : PoolState} (conn : Nat) (d : DestroyResult)
    (hfull : s._pool.maxsize ≤ s._pool.items.length) :
    s.do_return_conn conn d =
      ((match d with
        | DestroyResult.ok => ReleaseOutcome.destroyed
        | DestroyResult.err => ReleaseOutcome.destroyRaised),
        { s with _overflow := s._overflow - 1 }) := by
  unfold PoolState.do_return_conn
  rw [GQueue.put_of_full conn (by omega)]
  dsimp only
  rw [PoolState.dec_overflow_eq]
  cases d <;> rfl

/-- Behavior of `_do_get` on an empty queue when `_inc_overflow` succeeds: the creator is
invoked; on success its resource is returned with overflow incremented; on
failure the bare `except:` decrements overflow back and the function falls
through, returning `None` without re-raising. -/
theorem PoolState.do_get_create {s : PoolState} (fuel : Nat) (create : CreateResult)
    (hempty : s._pool.items = [])
    (hinc : s._max_overflow = -1 ∨ s._overflow < s._max_overflow) :
    s.do_get (fuel + 1) create =
      match create with
      | CreateResult.ok r =>
        (GetOutcome.conn r, { s with _overflow := s._overflow + 1 })
      | CreateResult.err => (GetOutcome.noneReturned, s) := by
  unfold PoolState.do_get
  rw [GQueue.take_of_nil hempty]
  dsimp only
  have hc : (decide (s._max_overflow > -1) && decide (s._overflow ≥ s._max_overflow)) = false := by
    rcases hinc with h | h
    · simp [h]
    · have h2 : ¬ (s._overflow ≥ s._max_overflow) := not_le.mpr h
      simp [h2]
  rw [hc]
  simp only [Bool.false_eq_true, if_false]
  rw [PoolState.inc_overflow_true hinc]
  cases create with
  | ok r => rfl
  | err =>
    dsimp only
    rw [PoolState.dec_overflow_eq]
    dsimp only
    have h3 : s._overflow + 1 - 1 = s._overflow := by omega
    rw [h3]

theorem drainLoop_all_ok (items : List Nat) :
    drainLoop (fun _ => false) items = (items, none, []) := by
  induction items with
  | nil => rfl
  | cons c rest ih => simp [drainLoop, ih]

/-- C5: for every pool state,
`checkedout() == size() - checkedin() + overflow()`; all four observers are
pure functions of the state. -/
theorem C5_observer_identity (s : PoolState) :
    s.checkedout = (s.size : Int) - (s.checkedin : Int) + s.overflow :=
  rfl

theorem acquireStep_ne_timeout {s : PoolState} {c : CreateResult}
    (hm : s._max_overflow = -1) : (acquireStep s c).1 ≠ GetOutcome.timeoutRaised := by
  unfold acquireStep
  cases htake : s._pool.take with
  | some p =>
    obtain ⟨c0, q⟩ := p
    simp
  | none =>
    dsimp only
    rw [if_neg (by rintro ⟨h1, -⟩; omega)]
    cases c with
    | ok r => simp
    | err => simp

theorem PoolState.do_get_ne_timeout {s : PoolState} (fuel : Nat) (c : CreateResult)
    (hm : s._max_overflow = -1) :
    (s.do_get fuel c).1 ≠ GetOutcome.timeoutRaised := by
  cases fuel with
  | zero => simp [PoolState.do_get]
  | succ n =>
    rw [PoolState.do_get_succ n s c (by omega)]
    exact acquireStep_ne_timeout hm

/-- C8: with `max_overflow = -1` (unbounded), no call to acquire ever raises
`PoolTimeoutError`: from every reachable state, for every retry fuel and
every creator outcome, the timeout-error branch of `_do_get` is not taken. -/
theorem C8_no_timeout {cap t : Nat} {s : PoolState} (h : Reach cap (-1) t s)
    (fuel : Nat) (c : CreateResult) :
    (s.do_get fuel c).1 ≠ GetOutcome.timeoutRaised :=
  PoolState.do_get_ne_timeout fuel c (Reach.config h).1

/-- Witness for C8 at the freshly constructed pool
`pool_size = 5, max_overflow = -1, timeout = 30`. -/
theorem C8_witness :
    ((PoolState.init 5 (-1) 30).do_get 1 CreateResult.err).1 ≠ GetOutcome.timeoutRaised :=
  C8_no_timeout Reach.init 1 CreateResult.err

/-- C9: when the idle queue holds exactly `capacity` resources
(`capacity > 0`), release does not insert: the resource's destroy operation
succeeds, the overflow counter drops by exactly 1, `checkedout()` drops by
exactly 1 and `checkedin()` is unchanged. -/
theorem C9_release_at_capacity {s : PoolState} (conn : Nat)
    (hfull : s.checkedin = s.size) (hcap : 0 < s.size) :
    (s.do_return_conn conn DestroyResult.ok).1 = ReleaseOutcome.destroyed ∧
    ((s.do_return_conn conn DestroyResult.ok).2).overflow = s.overflow - 1 ∧
    ((s.do_return_conn conn DestroyResult.ok).2).checkedout = s.checkedout - 1 ∧
    ((s.do_return_conn conn DestroyResult.ok).2).checkedin = s.checkedin := by
  have hlen : s._pool.items.length = s._pool.maxsize := hfull
  rw [PoolState.do_return_conn_full conn DestroyResult.ok (by omega)]
  refine ⟨rfl, rfl, ?_, rfl⟩
  unfold PoolState.checkedout
  dsimp only
  ring

/-- Witness for C9: a pool of capacity 2 whose idle queue holds the two
resources 5 and 6, releasing resource 9. -/
theorem C9_witness :
    ({ _pool := { maxsize := 2, items := [5, 6] }, _overflow := 0,
       _max_overflow := 10, _timeout := 30 } : PoolState).checkedin =
      ({ _pool := { maxsize := 2, items := [5, 6] }, _overflow := 0,
         _max_overflow := 10, _timeout := 30 } : PoolState).size ∧
    0 < ({ _pool := { maxsize := 2, items := [5, 6] }, _overflow := 0,
           _max_overflow := 10, _timeout := 30 } : PoolState).size ∧
    (({ _pool := { maxsize := 2, items := [5, 6] }, _overflow := 0,
        _max_overflow := 10, _timeout := 30 } : PoolState).do_return_conn 9
        DestroyResult.ok).1 = ReleaseOutcome.destroyed :=
  ⟨by decide, by decide, (C9_release_at_capacity 9 (by decide) (by decide)).1⟩

/-- C10: when release finds the idle queue full and the destroy operation
fails, the overflow counter is still decremented by exactly 1 (the decrement
is in a `finally`), and the destroy error propagates out of release. -/
theorem C10_decrement_on_destroy_error {s : PoolState} (conn : Nat)
    (hfull : s.size ≤ s.checkedin) :
    (s.do_return_conn conn DestroyResult.err).1 = ReleaseOutcome.destroyRaised ∧
    ((s.do_return_conn conn DestroyResult.err).2).overflow = s.overflow - 1 := by
  have hlen : s._pool.maxsize ≤ s._pool.items.length := hfull
  rw [PoolState.do_return_conn_full conn DestroyResult.err (by omega)]
  exact ⟨rfl, rfl⟩

/-- Witness for C10: a pool of capacity 1 with idle queue `[4]`, releasing
resource 8 whose destroy fails. -/
theorem C10_witness :
    ({ _pool := { maxsize := 1, items := [4] }, _overflow := 2,
       _max_overflow := 10, _timeout := 30 } : PoolState).size ≤
      ({ _pool := { maxsize := 1, items := [4] }, _overflow := 2,
         _max_overflow := 10, _timeout := 30 } : PoolState).checkedin ∧
    (({ _pool := { maxsize := 1, items := [4] }, _overflow := 2,
        _max_overflow := 10, _timeout := 30 } : PoolState).do_return_conn 8
        DestroyResult.err).2.overflow =
      ({ _pool := { maxsize := 1, items := [4] }, _overflow := 2,
         _max_overflow := 10, _timeout := 30 } : PoolState).overflow - 1 :=
  ⟨by decide, (C10_decrement_on_destroy_error 8 (by decide)).2⟩

/-- C6: when every destroy succeeds, `dispose()` returns normally having
destroyed exactly the previously idle resources (checked-out resources are
untouched: only queue contents are drained), leaving `checkedin() = 0`,
`overflow() = -capacity` and hence `checkedout() = 0`. -/
theorem C6_dispose_resets (s : PoolState) :
    (s.dispose (fun _ => false)).1 = DisposeOutcome.done ∧
    ((s.dispose (fun _ => false)).2.2).checkedin = 0 ∧
    ((s.dispose (fun _ => false)).2.2).overflow = 0 - ((s.size : Int)) ∧
    ((s.dispose (fun _ => false)).2.2).checkedout = 0 ∧
    (s.dispose (fun _ => false)).2.1 = s._pool.items := by
  unfold PoolState.dispose
  rw [drainLoop_all_ok]
  dsimp only
  refine ⟨rfl, rfl, rfl, ?_, rfl⟩
  unfold PoolState.checkedout GQueue.qsize
  dsimp only
  simp

/-- C7 counterexample: a pool with two idle resources `[1, 2]` where
destroying resource 1 fails.  `dispose` raises the destroy error (only the
`Empty` signal is caught) and resource 2 is left in the queue, never drained
or destroyed — contradicting "still removes and attempts to destroy every
remaining idle resource and does not raise". -/
theorem C7_counterexample :
    (({ _pool := { maxsize := 2, items := [1, 2] }, _overflow := 0,
        _max_overflow := 10, _timeout := 30 } : PoolState).dispose
        (fun c => c == 1)).1 = DisposeOutcome.raised 1 ∧
    ((({ _pool := { maxsize := 2, items := [1, 2] }, _overflow := 0,
         _max_overflow := 10, _timeout := 30 } : PoolState).dispose
        (fun c => c == 1)).2.2)._pool.items = [2] ∧
    (({ _pool := { maxsize := 2, items := [1, 2] }, _overflow := 0,
        _max_overflow := 10, _timeout := 30 } : PoolState).dispose
        (fun c => c == 1)).2.1 = [] := by
  refine ⟨rfl, rfl, rfl⟩

/-- C7 amended: if destroying the first drained idle resource fails, the
destroy error propagates out of `dispose()`: the failing resource has been
removed from the queue but destroyed nothing, the remaining idle resources
are not drained, and the overflow counter is not reset. -/
theorem C7_amended_abort {s : PoolState} {c : Nat} {rest : List Nat}
    {fails : Nat → Bool} (hitems : s._pool.items = c :: rest)
    (hfail : fails c = true) :
    (s.dispose fails).1 = DisposeOutcome.raised c ∧
    ((s.dispose fails).2.2)._pool.items = rest ∧
    ((s.dispose fails).2.2).overflow = s.overflow ∧
    (s.dispose fails).2.1 = [] := by
  unfold PoolState.dispose
  rw [hitems]
  unfold drainLoop
  rw [hfail]
  dsimp only
  exact ⟨rfl, rfl, rfl, rfl⟩

/-- Witness for the amended C7 at the counterexample input. -/
theorem C7_amended_witness :
    ({ _pool := { maxsize := 2, items := [1, 2] }, _overflow := 0,
       _max_overflow := 10, _timeout := 30 } : PoolState)._pool.items = 1 :: [2] ∧
    ((fun c : Nat => c == 1) 1) = true ∧
    (({ _pool := { maxsize := 2, items := [1, 2] }, _overflow := 0,
        _max_overflow := 10, _timeout := 30 } : PoolState).dispose
        (fun c => c == 1)).1 = DisposeOutcome.raised 1 :=
  ⟨rfl, rfl, (C7_amended_abort rfl rfl).1⟩

/-- C1: code behavior at the failing input.  When the overflow path is taken
(empty idle queue, `_inc_overflow` succeeds) and the creator fails,
`_do_get` runs `_dec_overflow()` exactly once inside the bare `except:`
(leaving the counter at its pre-call value, i.e. decremented by exactly 1
from the post-increment value) but then falls off the end of the function:
the outcome is a returned `None`, not a propagated creation error. -/
theorem C1_swallowed_creation_error {s : PoolState} (fuel : Nat)
    (hempty : s._pool.items = [])
    (hinc : s._max_overflow = -1 ∨ s._overflow < s._max_overflow) :
    (s.do_get (fuel + 1) CreateResult.err).1 = GetOutcome.noneReturned ∧
    (s.do_get (fuel + 1) CreateResult.err).2 = s := by
  rw [PoolState.do_get_create fuel CreateResult.err hempty hinc]
  exact ⟨rfl, rfl⟩

/-- Witness for C1 at a freshly constructed pool
`pool_size = 5, max_overflow = 10, timeout = 30` whose creator fails. -/
theorem C1_witness :
    (PoolState.init 5 10 30)._pool.items = [] ∧
    ((PoolState.init 5 10 30)._max_overflow = -1 ∨
      (PoolState.init 5 10 30)._overflow < (PoolState.init 5 10 30)._max_overflow) ∧
    ((PoolState.init 5 10 30).do_get 1 CreateResult.err).1 = GetOutcome.noneReturned ∧
    ((PoolState.init 5 10 30).do_get 1 CreateResult.err).2 = PoolState.init 5 10 30 :=
  ⟨rfl, by decide,
    (C1_swallowed_creation_error 0 rfl (by decide)).1,
    (C1_swallowed_creation_error 0 rfl (by decide)).2⟩

/-- The concrete pool instance of the C2 counterexample: identity 0,
capacity 2, one idle resource `7`, overflow `-1`, `max_overflow = 10`,
`timeout = 30`; it is itself the cached singleton instance. -/
def c2Instance : PoolInstance :=
  ⟨0, { _pool := { maxsize := 2, items := [7] }, _overflow := -1
      , _max_overflow := 10, _timeout := 30 }⟩

/-- C2 counterexample: a pool instance (identity 0) holding one idle
resource is the cached singleton instance.  `recreate()` (offering fresh
identity 1) returns the receiver itself — the same instance, not a distinct
new pool — and the returned pool's idle queue is not empty, contradicting
"distinct from the receiver" and "independent state (empty idle queue)". -/
theorem C2_counterexample :
    (c2Instance.recreate (some c2Instance) 1).2 = c2Instance ∧
    ((c2Instance.recreate (some c2Instance) 1).2).state.checkedin ≠ 0 := by
  refine ⟨rfl, by decide⟩

/-- C2 amended: `recreate()` invokes the class constructor with the
receiver's configuration, but the `Singleton` metaclass intercepts it: when
the cache holds the receiver, `recreate()` returns the receiver itself
(same instance, shared state, receiver unchanged); only with an empty cache
would it return a fresh pool with the receiver's configuration
(capacity, max_overflow, timeout) and reset state. -/
theorem C2_recreate_singleton (p : PoolInstance) (freshId : Nat) :
    (p.recreate (some p) freshId).2 = p ∧
    (p.recreate (some p) freshId).1 = some p ∧
    (p.recreate none freshId).2 =
      ⟨freshId, PoolState.init p.state._pool.maxsize p.state._max_overflow
          p.state._timeout⟩ :=
  ⟨rfl, rfl, rfl⟩

/-- Reachable states of a pool configured with `pool_size = 0` and
`max_overflow = -1` (Scenario C), instrumented with the number of
outstanding (checked-out) resources: an acquire whose outcome is a resource
adds one outstanding resource, any other acquire outcome adds none, and a
release presupposes an outstanding resource (callers return only resources
they checked out). -/
inductive ReachC3 (t : Nat) : PoolState → Nat → Prop where
  | init : ReachC3 t (PoolState.init 0 (-1) t) 0
  | acquireConn {s : PoolState} {n r : Nat} (fuel : Nat) (create : CreateResult) :
      ReachC3 t s n → (s.do_get fuel create).1 = GetOutcome.conn r →
      ReachC3 t (s.do_get fuel create).2 (n + 1)
  | acquireMiss {s : PoolState} {n : Nat} (fuel : Nat) (create : CreateResult) :
      ReachC3 t s n → (∀ r, (s.do_get fuel create).1 ≠ GetOutcome.conn r) →
      ReachC3 t (s.do_get fuel create).2 n
  | release {s : PoolState} {n : Nat} (conn : Nat) (destroy : DestroyResult) :
      ReachC3 t s (n + 1) → ReachC3 t (s.do_return_conn conn destroy).2 n

theorem ReachC3.inv {t : Nat} {s : PoolState} {n : Nat} (h : ReachC3 t s n) :
    s._pool.items = [] ∧ s._pool.maxsize = 0 ∧ s._max_overflow = -1 ∧
      s._overflow = (n : Int) := by
  induction h with
  | init => exact ⟨rfl, rfl, rfl, by simp [PoolState.init]⟩
  | @acquireConn s0 n0 r fuel create hr hc ih =>
    obtain ⟨hempty, hms, hmax, hovf⟩ := ih
    cases fuel with
    | zero =>
      exfalso
      simp [PoolState.do_get] at hc
    | succ f =>
      rw [PoolState.do_get_create f create hempty (Or.inl hmax)] at hc ⊢
      cases create with
      | ok r2 =>
        refine ⟨hempty, hms, hmax, ?_⟩
        dsimp only
        omega
      | err => cases hc
  | @acquireMiss s0 n0 fuel create hr hmiss ih =>
    obtain ⟨hempty, hms, hmax, hovf⟩ := ih
    cases fuel with
    | zero => exact ⟨hempty, hms, hmax, hovf⟩
    | succ f =>
      rw [PoolState.do_get_create f create hempty (Or.inl hmax)] at hmiss ⊢
      cases create with
      | ok r2 => exact absurd rfl (hmiss r2)
      | err => exact ⟨hempty, hms, hmax, hovf⟩
  | @release s0 n0 conn destroy hr ih =>
    obtain ⟨hempty, hms, hmax, hovf⟩ := ih
    rw [PoolState.do_return_conn_full conn destroy (by simp [hms, hempty])]
    refine ⟨hempty, hms, hmax, ?_⟩
    dsimp only
    omega

/-- C3: for every reachable state of a pool with `pool_size = 0` and
`max_overflow = -1`: the idle queue is always empty, so every acquire
misses it and, when the creator succeeds, returns the freshly created
resource after incrementing overflow; every release finds the queue
unwilling (capacity 0), destroys the resource and decrements overflow by 1;
and the overflow counter equals the number of outstanding resources, hence
is never negative. -/
theorem C3_capacity_zero {t : Nat} {s : PoolState} {n : Nat} (h : ReachC3 t s n) :
    s.checkedin = 0 ∧
    s.overflow = (n : Int) ∧
    0 ≤ s.overflow ∧
    (∀ fuel r, s.do_get (fuel + 1) (CreateResult.ok r) =
      (GetOutcome.conn r, { s with _overflow := s._overflow + 1 })) ∧
    (∀ conn, s.do_return_conn conn DestroyResult.ok =
      (ReleaseOutcome.destroyed, { s with _overflow := s._overflow - 1 })) := by
  obtain ⟨hempty, hms, hmax, hovf⟩ := ReachC3.inv h
  refine ⟨?_, hovf, ?_, ?_, ?_⟩
  · show s._pool.items.length = 0
    rw [hempty]
    rfl
  · show (0 : Int) ≤ s._overflow
    omega
  · intro fuel r
    exact PoolState.do_get_create fuel (CreateResult.ok r) hempty (Or.inl hmax)
  · intro conn
    exact PoolState.do_return_conn_full conn DestroyResult.ok (by simp [hms, hempty])

/-- Witness for C3 at the freshly constructed capacity-0 pool with
`timeout = 30`, acquiring created resource 7 and releasing resource 9. -/
theorem C3_witness :
    (PoolState.init 0 (-1) 30).checkedin = 0 ∧
    (PoolState.init 0 (-1) 30).do_get 1 (CreateResult.ok 7) =
      (GetOutcome.conn 7,
        { PoolState.init 0 (-1) 30 with
            _overflow := (PoolState.init 0 (-1) 30)._overflow + 1 }) ∧
    (PoolState.init 0 (-1) 30).do_return_conn 9 DestroyResult.ok =
      (ReleaseOutcome.destroyed,
        { PoolState.init 0 (-1) 30 with
            _overflow := (PoolState.init 0 (-1) 30)._overflow - 1 }) :=
  ⟨(C3_capacity_zero ReachC3.init).1,
    (C3_capacity_zero ReachC3.init).2.2.2.1 0 7,
    (C3_capacity_zero ReachC3.init).2.2.2.2 9⟩
